import Mathlib

/-!
Verification of the InstaAgent smart-comment core: the eligibility filter,
the caption-length gate, the idempotency ledger, the per-account comment
pipeline, the batch orchestrator, the scheduler guard and the webhook
job registry, shallowly embedded from the TypeScript sources.
-/

namespace InstaAgent

/-- A post entry as produced by IgClient.getLastFourPosts: post id, url,
content type, publish timestamp (milliseconds since the epoch, as in
JavaScript Date.getTime) and pinned flag. -/
structure IgPost where
  postId : String
  postUrl : String
  contentType : String
  timestamp : Int
  isPinned : Bool
deriving Repr, DecidableEq

/-- Ordering used by the final sort of IgClient.getLastFourPosts: the
JavaScript comparator (a, b) => b.timestamp - a.timestamp places a before b
exactly when b.timestamp ≤ a.timestamp (newest first). -/
def postLater (a b : IgPost) : Prop :=
  b.timestamp ≤ a.timestamp

instance : DecidableRel postLater :=
  fun a b => inferInstanceAs (Decidable (b.timestamp ≤ a.timestamp))

instance : IsTotal IgPost postLater :=
  ⟨fun a b => Int.le_total b.timestamp a.timestamp⟩

instance : IsTrans IgPost postLater :=
  ⟨fun _ _ _ hab hbc => le_trans hbc hab⟩

/-- Final step of IgClient.getLastFourPosts: sort the extracted posts by
timestamp, newest first. -/
def sortPostsNewestFirst (posts : List IgPost) : List IgPost :=
  List.insertionSort postLater posts

/-- botConfig.filtering.captionLength from src/config/botConfig.ts. -/
structure CaptionLengthConfig where
  enabled : Bool
  min : Nat
  max : Nat
deriving Repr, DecidableEq

/-- botConfig.filtering.maxPostAge from src/config/botConfig.ts. -/
structure MaxPostAgeConfig where
  enabled : Bool
  days : Nat
deriving Repr, DecidableEq

/-- botConfig.timing.betweenPosts from src/config/botConfig.ts. -/
structure BetweenPostsConfig where
  min : Nat
  max : Nat
deriving Repr, DecidableEq

/-- Concrete value of botConfig.filtering.captionLength. -/
def botConfigCaptionLength : CaptionLengthConfig :=
  { enabled := true, min := 50, max := 2200 }

/-- Concrete value of botConfig.filtering.maxPostAge. -/
def botConfigMaxPostAge : MaxPostAgeConfig :=
  { enabled := true, days := 1 }

/-- Concrete value of botConfig.timing.betweenPosts. -/
def botConfigBetweenPosts : BetweenPostsConfig :=
  { min := 5000, max := 10000 }

/-- Return value of SmartCommentService.shouldCommentBasedOnLength. -/
structure LengthGate where
  allowed : Bool
  reason : Option String
deriving Repr, DecidableEq

/-- SmartCommentService.shouldCommentBasedOnLength from
src/services/smart-comment.ts: when the gate is enabled, a caption shorter
than the configured minimum or longer than the configured maximum is
rejected with a reason; otherwise the caption is allowed. -/
def shouldCommentBasedOnLength (config : CaptionLengthConfig)
    (captionLength : Nat) : LengthGate :=
  if config.enabled = false then
    { allowed := true, reason := none }
  else if captionLength < config.min then
    { allowed := false,
      reason := some ("Caption too short (" ++ toString captionLength ++
        " < " ++ toString config.min ++ " chars)") }
  else if captionLength > config.max then
    { allowed := false,
      reason := some ("Caption too long (" ++ toString captionLength ++
        " > " ++ toString config.max ++ " chars)") }
  else
    { allowed := true, reason := none }

/-- Effective maximum age in days used by commentOnLatestPost: the
configured value when the filter is enabled, otherwise 999. -/
def maxPostAgeDays (cfg : MaxPostAgeConfig) : Nat :=
  if cfg.enabled then cfg.days else 999

/-- The maximum age converted to milliseconds, as in commentOnLatestPost. -/
def maxPostAgeMs (cfg : MaxPostAgeConfig) : Int :=
  (maxPostAgeDays cfg : Int) * 24 * 60 * 60 * 1000

/-- One iteration of the filtering loop of commentOnLatestPost: a post is
kept unless (the age filter is enabled and its age exceeds the maximum) or
it has already been commented on. The pinned flag plays no role here. -/
def isEligiblePost (cfg : MaxPostAgeConfig) (now : Int)
    (hasCommented : String → Bool) (post : IgPost) : Bool :=
  let postAge := now - post.timestamp
  if cfg.enabled && decide (postAge > maxPostAgeMs cfg) then false
  else if hasCommented post.postId then false
  else true

/-- The eligiblePosts list built by the filtering loop of
commentOnLatestPost, in input order. -/
def eligiblePosts (cfg : MaxPostAgeConfig) (now : Int)
    (hasCommented : String → Bool) (posts : List IgPost) : List IgPost :=
  posts.filter (isEligiblePost cfg now hasCommented)

/-- Step 4 of commentOnLatestPost: take the first eligible post, relying on
the input list being sorted newest first. -/
def selectLatestEligible (cfg : MaxPostAgeConfig) (now : Int)
    (hasCommented : String → Bool) (posts : List IgPost) : Option IgPost :=
  (eligiblePosts cfg now hasCommented posts).head?

/-- C1: on any candidate list delivered by discovery (hence sorted newest
first by getLastFourPosts), the post selected by the filtering and
selection steps of commentOnLatestPost is a survivor of the age and
duplicate filters and has the maximum timestamp among all survivors. -/
theorem selectLatestEligible_newest
    (cfg : MaxPostAgeConfig) (now : Int) (hasCommented : String → Bool)
    (raw : List IgPost) (sel : IgPost)
    (h : selectLatestEligible cfg now hasCommented (sortPostsNewestFirst raw) =
      some sel) :
    sel ∈ raw ∧ isEligiblePost cfg now hasCommented sel = true ∧
      ∀ p ∈ raw, isEligiblePost cfg now hasCommented p = true →
        p.timestamp ≤ sel.timestamp := by
  unfold selectLatestEligible at h
  have hsorted : (sortPostsNewestFirst raw).Sorted postLater :=
    List.sorted_insertionSort postLater raw
  have hperm : List.Perm (sortPostsNewestFirst raw) raw :=
    List.perm_insertionSort postLater raw
  have hsurv_sorted :
      (eligiblePosts cfg now hasCommented (sortPostsNewestFirst raw)).Sorted
        postLater :=
    List.Pairwise.sublist (List.filter_sublist _) hsorted
  obtain ⟨t, ht⟩ : ∃ t,
      eligiblePosts cfg now hasCommented (sortPostsNewestFirst raw) =
        sel :: t := by
    cases hsl : eligiblePosts cfg now hasCommented (sortPostsNewestFirst raw) with
    | nil => rw [hsl] at h; simp at h
    | cons a t =>
      rw [hsl] at h
      simp only [List.head?_cons, Option.some.injEq] at h
      exact ⟨t, by rw [h] at hsl ⊢⟩
  have hmax : ∀ p ∈ eligiblePosts cfg now hasCommented (sortPostsNewestFirst raw),
      p.timestamp ≤ sel.timestamp := by
    rw [ht] at hsurv_sorted ⊢
    intro p hp
    rcases List.mem_cons.mp hp with hps | hpt
    · rw [hps]
    · exact (List.pairwise_cons.mp hsurv_sorted).1 p hpt
  have hself : sel ∈ eligiblePosts cfg now hasCommented (sortPostsNewestFirst raw) := by
    rw [ht]; exact List.mem_cons_self sel t
  have hself2 := List.mem_filter.mp hself
  refine ⟨hperm.subset hself2.1, hself2.2, ?_⟩
  intro p hpraw hpel
  exact hmax p (List.mem_filter.mpr ⟨hperm.mem_iff.mpr hpraw, hpel⟩)

/-- Concrete posts used to exercise the selection theorem. -/
def postA : IgPost :=
  { postId := "A", postUrl := "https://example.com/p/A", contentType := "image",
    timestamp := 100, isPinned := false }

/-- A second concrete post, older than postA. -/
def postB : IgPost :=
  { postId := "B", postUrl := "https://example.com/p/B", contentType := "reel",
    timestamp := 50, isPinned := true }

/-- Witness for C1 at a concrete two-post candidate set. -/
theorem selectLatestEligible_newest_witness :
    postA ∈ [postB, postA] ∧
      isEligiblePost { enabled := false, days := 1 } 200 (fun _ => false) postA =
        true ∧
      ∀ p ∈ [postB, postA],
        isEligiblePost { enabled := false, days := 1 } 200 (fun _ => false) p =
          true → p.timestamp ≤ postA.timestamp :=
  selectLatestEligible_newest { enabled := false, days := 1 } 200 (fun _ => false)
    [postB, postA] postA (by decide)

/-- C7: with the gate enabled, a caption is rejected exactly when its length
is strictly below the configured minimum or strictly above the configured
maximum. -/
theorem shouldCommentBasedOnLength_rejects_iff
    (cfg : CaptionLengthConfig) (len : Nat) (hcfg : cfg.enabled = true) :
    (shouldCommentBasedOnLength cfg len).allowed = false ↔
      (len < cfg.min ∨ cfg.max < len) := by
  unfold shouldCommentBasedOnLength
  rw [hcfg]
  by_cases h1 : len < cfg.min
  · simp [h1]
  · by_cases h2 : cfg.max < len
    · simp [h1, h2]
    · simp [h1, h2]

/-- Witness for C7: with the shipped bounds min = 50, max = 2200, length 49
and length 2201 are rejected while length 50 and length 2200 are allowed. -/
theorem shouldCommentBasedOnLength_rejects_iff_witness :
    (shouldCommentBasedOnLength botConfigCaptionLength 49).allowed = false ∧
      (shouldCommentBasedOnLength botConfigCaptionLength 2201).allowed = false ∧
      ¬(shouldCommentBasedOnLength botConfigCaptionLength 50).allowed = false ∧
      ¬(shouldCommentBasedOnLength botConfigCaptionLength 2200).allowed = false :=
  ⟨(shouldCommentBasedOnLength_rejects_iff botConfigCaptionLength 49 rfl).mpr
      (by decide),
    (shouldCommentBasedOnLength_rejects_iff botConfigCaptionLength 2201 rfl).mpr
      (by decide),
    fun h =>
      by simpa [botConfigCaptionLength] using
        (shouldCommentBasedOnLength_rejects_iff botConfigCaptionLength 50 rfl).mp h,
    fun h =>
      by simpa [botConfigCaptionLength] using
        (shouldCommentBasedOnLength_rejects_iff botConfigCaptionLength 2200 rfl).mp h⟩

/-- A CommentRecord as stored by the PostMemory mongoose model
(src/models/PostMemory.ts). The metadata object is reduced to the post
timestamp it carries in this codebase. -/
structure CommentRecord where
  platform : String
  targetAccount : String
  postId : String
  postUrl : Option String
  captionLength : Nat
  caption : Option String
  commentText : Option String
  wasSuccessful : Bool
  commentedAt : Int
  metadataPostTimestamp : Option Int
deriving Repr, DecidableEq

/-- The key triple covered by the unique compound index declared on the
PostMemory schema: platform 1, targetAccount 1, postId 1, unique true. -/
def recordKey (r : CommentRecord) : String × String × String :=
  (r.platform, r.targetAccount, r.postId)

/-- The ledger: the stored collection of CommentRecords. -/
abbrev Ledger := List CommentRecord

/-- PostMemory.hasCommented: countDocuments over the key triple, compared
against zero. -/
def ledgerHasCommented (l : Ledger) (platform targetAccount postId : String) :
    Bool :=
  l.any fun r =>
    r.platform == platform && r.targetAccount == targetAccount &&
      r.postId == postId

/-- Outcome of an insert against the collection with the unique compound
index: either the extended collection, or a duplicate-key rejection. -/
inductive InsertOutcome
  | inserted (l : Ledger)
  | duplicateKey
deriving Repr, DecidableEq

/-- Storage-level semantics of PostMemory.recordComment: a bare create
against the collection, whose unique index on (platform, targetAccount,
postId) rejects a second record with an existing key (MongoDB error
E11000). recordComment performs no application-level check-then-insert;
the uniqueness decision is made here, atomically, by the index. -/
def insertRecord (l : Ledger) (r : CommentRecord) : InsertOutcome :=
  if l.any fun x => decide (recordKey x = recordKey r) then .duplicateKey
  else .inserted (l ++ [r])

/-- The ledger state after an attempted insert: unchanged on a duplicate
key, extended by the new record otherwise. -/
def ledgerAfterInsert (l : Ledger) (r : CommentRecord) : Ledger :=
  match insertRecord l r with
  | .inserted l2 => l2
  | .duplicateKey => l

/-- The uniqueness invariant maintained by the unique compound index: no
two stored records share (platform, targetAccount, postId). -/
def UniqueLedger (l : Ledger) : Prop :=
  l.Pairwise fun a b => recordKey a ≠ recordKey b

/-- C2: the storage-level insert reports a duplicate key exactly when a
record with the same (platform, targetAccount, postId) triple is already
stored, and every insert — whichever way it resolves, including the second
of two racing inserts of the same triple — preserves the invariant that no
two stored records share that triple. -/
theorem insertRecord_preserves_unique (l : Ledger) (r : CommentRecord)
    (hu : UniqueLedger l) :
    UniqueLedger (ledgerAfterInsert l r) ∧
      (insertRecord l r = .duplicateKey ↔ ∃ x ∈ l, recordKey x = recordKey r) := by
  constructor
  · unfold ledgerAfterInsert insertRecord
    by_cases hany : l.any fun x => decide (recordKey x = recordKey r)
    · simpa [hany] using hu
    · simp only [hany, Bool.false_eq_true, if_false]
      unfold UniqueLedger at hu ⊢
      rw [List.pairwise_append]
      refine ⟨hu, List.pairwise_singleton _ _, ?_⟩
      intro a ha b hb
      rw [List.mem_singleton.mp hb]
      simp only [List.any_eq_true, decide_eq_true_eq] at hany
      exact fun hk => hany ⟨a, ha, hk⟩
  · unfold insertRecord
    by_cases hany : l.any fun x => decide (recordKey x = recordKey r)
    · simp only [hany, if_true, true_iff]
      simpa using hany
    · simp only [hany, Bool.false_eq_true, if_false]
      refine iff_of_false (by simp) ?_
      intro hex
      simp only [List.any_eq_true, decide_eq_true_eq] at hany
      exact hany hex

/-- A concrete ledger record used in witnesses. -/
def sampleRecord : CommentRecord :=
  { platform := "instagram", targetAccount := "acct", postId := "A",
    postUrl := some "https://example.com/p/A", captionLength := 120,
    caption := some "a caption", commentText := some "nice shot",
    wasSuccessful := true, commentedAt := 1000, metadataPostTimestamp := some 100 }

/-- Witness for C2: inserting a record into a singleton ledger that already
holds its key keeps the ledger unique and reports the duplicate. -/
theorem insertRecord_preserves_unique_witness :
    UniqueLedger (ledgerAfterInsert [sampleRecord] sampleRecord) ∧
      (insertRecord [sampleRecord] sampleRecord = .duplicateKey ↔
        ∃ x ∈ [sampleRecord], recordKey x = recordKey sampleRecord) :=
  insertRecord_preserves_unique [sampleRecord] sampleRecord
    (by simp [UniqueLedger])

/-- Action field of a CommentResult. -/
inductive CommentAction
  | commented
  | skipped
  | failed
deriving Repr, DecidableEq

/-- CommentResult returned by the smart-comment service
(src/services/smart-comment.ts). -/
structure CommentResult where
  targetAccount : String
  success : Bool
  action : CommentAction
  reason : Option String
  postId : Option String
  postUrl : Option String
  captionLength : Option Nat
  comment : Option String
deriving Repr, DecidableEq

/-- The failed result built by the catch branches of commentOnLatestPost and
processTargets: success false, action failed, reason the error message. -/
def failedResult (targetAccount reason : String) : CommentResult :=
  { targetAccount := targetAccount, success := false, action := .failed,
    reason := some reason, postId := none, postUrl := none,
    captionLength := none, comment := none }

/-- A skipped result of commentOnLatestPost: success true, action skipped,
with the given reason. -/
def skippedResult (targetAccount reason : String) : CommentResult :=
  { targetAccount := targetAccount, success := true, action := .skipped,
    reason := some reason, postId := none, postUrl := none,
    captionLength := none, comment := none }

/-- PostDetail as returned by IgClient.getPostDetails: caption text, caption
length, and the visual payload (screenshot or video frames). -/
structure PostDetail where
  caption : Option String
  captionLength : Nat
  screenshotBase64 : Option String
  videoFramesBase64 : Option (List String)
deriving Repr, DecidableEq

/-- External collaborators and ambient state of one commentOnLatestPost run.
Each fallible collaborator is Except valued: an error models the JavaScript
call rejecting, which the catch-all of commentOnLatestPost turns into a
failed result. The database is read through hasCommented during the
filtering loop and written through recordComment afterwards; because these
are separate operations at different instants, the run receives the
filter-time answers (hasCommented) separately from the ledger state at
record time (ledgerAtRecord), which a concurrent run may have extended in
between. -/
structure PipelineEnv where
  now : Int
  posts : Except String (List IgPost)
  hasCommented : String → Bool
  getPostDetails : String → Except String (Option PostDetail)
  generateComment : Option String → Option String → Option (List String) →
    Except String String
  postComment : String → String → Except String Unit
  ledgerAtRecord : Ledger

/-- The record handed to PostMemory.recordComment in step 8 of
commentOnLatestPost. -/
def builtRecord (now : Int) (targetAccount : String) (latest : IgPost)
    (post : PostDetail) (comment : String) : CommentRecord :=
  { platform := "instagram", targetAccount := targetAccount,
    postId := latest.postId, postUrl := some latest.postUrl,
    captionLength := post.captionLength, caption := post.caption,
    commentText := some comment, wasSuccessful := true, commentedAt := now,
    metadataPostTimestamp := some latest.timestamp }

/-- Shallow embedding of SmartCommentService.commentOnLatestPost
(src/services/smart-comment.ts): fetch the last posts, filter by age and
comment history, take the first survivor (the list arrives newest first),
fetch its details, generate a comment, post it, and record it; every
rejection is caught and becomes a failed result. Returns the CommentResult
together with the ledger state after the run. The generated comment string
being empty models the falsy check that throws AI failed to generate a
comment. -/
def commentOnLatestPost (cfg : MaxPostAgeConfig) (env : PipelineEnv)
    (targetAccount : String) : CommentResult × Ledger :=
  match env.posts with
  | .error e => (failedResult targetAccount e, env.ledgerAtRecord)
  | .ok posts =>
    if posts.isEmpty then
      (skippedResult targetAccount "No posts found for this account",
        env.ledgerAtRecord)
    else
      match selectLatestEligible cfg env.now env.hasCommented posts with
      | none =>
        (skippedResult targetAccount
          ("No posts within " ++ toString (maxPostAgeDays cfg) ++
            " days or all recent posts already commented on"),
          env.ledgerAtRecord)
      | some latest =>
        match env.getPostDetails latest.postUrl with
        | .error e => (failedResult targetAccount e, env.ledgerAtRecord)
        | .ok none =>
          (skippedResult targetAccount "Failed to get post details",
            env.ledgerAtRecord)
        | .ok (some post) =>
          match env.generateComment post.caption post.screenshotBase64
              post.videoFramesBase64 with
          | .error e => (failedResult targetAccount e, env.ledgerAtRecord)
          | .ok comment =>
            if comment = "" then
              (failedResult targetAccount "AI failed to generate a comment.",
                env.ledgerAtRecord)
            else
              match env.postComment latest.postUrl comment with
              | .error e => (failedResult targetAccount e, env.ledgerAtRecord)
              | .ok _ =>
                match insertRecord env.ledgerAtRecord
                    (builtRecord env.now targetAccount latest post comment) with
                | .inserted l2 =>
                  ({ targetAccount := targetAccount, success := true,
                     action := .commented, reason := none,
                     postId := some latest.postId,
                     postUrl := some latest.postUrl,
                     captionLength := some post.captionLength,
                     comment := some comment }, l2)
                | .duplicateKey =>
                  (failedResult targetAccount
                    "E11000 duplicate key error collection",
                    env.ledgerAtRecord)

/-- The generation step failed (the promise rejected or the returned string
is falsy), or generation succeeded and the submission step rejected. -/
def genOrSubmitFails (env : PipelineEnv) (latest : IgPost) (post : PostDetail) :
    Prop :=
  (∃ e, env.generateComment post.caption post.screenshotBase64
      post.videoFramesBase64 = .error e) ∨
    env.generateComment post.caption post.screenshotBase64
      post.videoFramesBase64 = .ok "" ∨
    (∃ c e, env.generateComment post.caption post.screenshotBase64
        post.videoFramesBase64 = .ok c ∧ c ≠ "" ∧
      env.postComment latest.postUrl c = .error e)

/-- C3: when the run reaches the generation step and generation returns an
empty comment or rejects, or generation succeeds and submission rejects,
commentOnLatestPost returns action failed and the ledger is exactly the
ledger the run started with: nothing is written. -/
theorem commentOnLatestPost_failed_no_write
    (cfg : MaxPostAgeConfig) (env : PipelineEnv) (targetAccount : String)
    (ps : List IgPost) (latest : IgPost) (post : PostDetail)
    (hps : env.posts = .ok ps)
    (hsel : selectLatestEligible cfg env.now env.hasCommented ps = some latest)
    (hdet : env.getPostDetails latest.postUrl = .ok (some post))
    (hfail : genOrSubmitFails env latest post) :
    (commentOnLatestPost cfg env targetAccount).1.action = .failed ∧
      (commentOnLatestPost cfg env targetAccount).1.success = false ∧
      (commentOnLatestPost cfg env targetAccount).2 = env.ledgerAtRecord := by
  have hne : ps.isEmpty = false := by
    cases ps with
    | nil => simp [selectLatestEligible, eligiblePosts] at hsel
    | cons a t => rfl
  rcases hfail with ⟨e, hgen⟩ | hgen | ⟨c, e, hgen, hc, hpost⟩
  · simp [commentOnLatestPost, hps, hne, hsel, hdet, hgen, failedResult]
  · simp [commentOnLatestPost, hps, hne, hsel, hdet, hgen, failedResult]
  · simp [commentOnLatestPost, hps, hne, hsel, hdet, hgen, hc, hpost,
      failedResult]

/-- A concrete candidate post used in pipeline witnesses. -/
def witnessPost : IgPost :=
  { postId := "W", postUrl := "https://example.com/p/W",
    contentType := "image", timestamp := 0, isPinned := false }

/-- A concrete post detail used in pipeline witnesses. -/
def witnessDetail : PostDetail :=
  { caption := some "a sufficiently long caption for the witness",
    captionLength := 120, screenshotBase64 := some "img",
    videoFramesBase64 := none }

/-- A concrete environment whose generation step always rejects. -/
def envGenFails : PipelineEnv :=
  { now := 0, posts := .ok [witnessPost], hasCommented := fun _ => false,
    getPostDetails := fun _ => .ok (some witnessDetail),
    generateComment := fun _ _ _ => .error "generation refused",
    postComment := fun _ _ => .ok (), ledgerAtRecord := [] }

/-- Witness for C3: with a rejecting generator, the run fails and the ledger
is left empty. -/
theorem commentOnLatestPost_failed_no_write_witness :
    (commentOnLatestPost botConfigMaxPostAge envGenFails "acct").1.action =
        .failed ∧
      (commentOnLatestPost botConfigMaxPostAge envGenFails "acct").1.success =
        false ∧
      (commentOnLatestPost botConfigMaxPostAge envGenFails "acct").2 =
        envGenFails.ledgerAtRecord :=
  commentOnLatestPost_failed_no_write botConfigMaxPostAge envGenFails "acct"
    [witnessPost] witnessPost witnessDetail rfl (by decide) rfl
    (Or.inl ⟨"generation refused", rfl⟩)

/-- A record already stored for the key the witness run will try to write:
a concurrent run recorded post W for account acct before our record step. -/
def conflictRecord : CommentRecord :=
  { platform := "instagram", targetAccount := "acct", postId := "W",
    postUrl := some "https://example.com/p/W", captionLength := 120,
    caption := some "a sufficiently long caption for the witness",
    commentText := some "first comment", wasSuccessful := true,
    commentedAt := -5, metadataPostTimestamp := some 0 }

/-- A concrete environment in which every collaborator succeeds but the
ledger already holds the key of the record the run writes: the filter-time
read saw no record, a concurrent run inserted one in between. -/
def envConflict : PipelineEnv :=
  { now := 0, posts := .ok [witnessPost], hasCommented := fun _ => false,
    getPostDetails := fun _ => .ok (some witnessDetail),
    generateComment := fun _ _ _ => .ok "great post",
    postComment := fun _ _ => .ok (), ledgerAtRecord := [conflictRecord] }

/-- Counterexample to C4: in a run where the insert reports a duplicate key,
commentOnLatestPost returns action failed with success false — the conflict
is not treated as a success. -/
theorem commentOnLatestPost_conflict_counterexample :
    (commentOnLatestPost botConfigMaxPostAge envConflict "acct").1.action =
        .failed ∧
      (commentOnLatestPost botConfigMaxPostAge envConflict "acct").1.success =
        false := by
  decide

/-- C4 amended: when the record-insertion step reports a uniqueness
conflict, commentOnLatestPost does not special-case it — the duplicate-key
rejection is caught by the catch-all like any other error, so the run
returns a failed result (success false) and writes nothing. -/
theorem commentOnLatestPost_conflict_failed
    (cfg : MaxPostAgeConfig) (env : PipelineEnv) (targetAccount : String)
    (ps : List IgPost) (latest : IgPost) (post : PostDetail) (c : String)
    (hps : env.posts = .ok ps)
    (hsel : selectLatestEligible cfg env.now env.hasCommented ps = some latest)
    (hdet : env.getPostDetails latest.postUrl = .ok (some post))
    (hgen : env.generateComment post.caption post.screenshotBase64
      post.videoFramesBase64 = .ok c)
    (hc : c ≠ "")
    (hpost : env.postComment latest.postUrl c = .ok ())
    (hdup : insertRecord env.ledgerAtRecord
      (builtRecord env.now targetAccount latest post c) = .duplicateKey) :
    (commentOnLatestPost cfg env targetAccount).1.action = .failed ∧
      (commentOnLatestPost cfg env targetAccount).1.success = false ∧
      (commentOnLatestPost cfg env targetAccount).2 = env.ledgerAtRecord := by
  have hne : ps.isEmpty = false := by
    cases ps with
    | nil => simp [selectLatestEligible, eligiblePosts] at hsel
    | cons a t => rfl
  simp [commentOnLatestPost, hps, hne, hsel, hdet, hgen, hc, hpost, hdup,
    failedResult]

/-- Witness for the amended C4 at the concrete conflicting environment. -/
theorem commentOnLatestPost_conflict_failed_witness :
    (commentOnLatestPost botConfigMaxPostAge envConflict "acct").1.action =
        .failed ∧
      (commentOnLatestPost botConfigMaxPostAge envConflict "acct").1.success =
        false ∧
      (commentOnLatestPost botConfigMaxPostAge envConflict "acct").2 =
        envConflict.ledgerAtRecord :=
  commentOnLatestPost_conflict_failed botConfigMaxPostAge envConflict "acct"
    [witnessPost] witnessPost witnessDetail "great post" rfl (by decide) rfl
    rfl (by decide) rfl (by decide)

/-- The inter-account delay computed in processTargets:
Math.floor(Math.random() * (max - min) + min), with the random draw given
as a rational in the interval [0, 1). -/
def betweenPostsDelay (cfgT : BetweenPostsConfig) (r : Rat) : Int :=
  Int.floor (r * ((cfgT.max : Rat) - (cfgT.min : Rat)) + (cfgT.min : Rat))

/-- Loop body of SmartCommentService.processTargets: for each account the
try block awaits the pipeline, pushes its result and then sleeps for the
randomized delay; a rejection of the pipeline call jumps to the catch
branch, which pushes a failed result and skips the sleep of that
iteration. The
pipeline argument is Except valued so the catch branch is representable;
rnd gives the per-iteration Math.random draw. Returns the result list and
the list of delays slept, in order. -/
def processTargetsGo (pipeline : String → Except String CommentResult)
    (cfgT : BetweenPostsConfig) (rnd : Nat → Rat) (idx : Nat) :
    List String → List CommentResult × List Int
  | [] => ([], [])
  | a :: rest =>
    match pipeline a with
    | .ok result =>
      let next := processTargetsGo pipeline cfgT rnd (idx + 1) rest
      (result :: next.1, betweenPostsDelay cfgT (rnd idx) :: next.2)
    | .error e =>
      let next := processTargetsGo pipeline cfgT rnd (idx + 1) rest
      (failedResult a e :: next.1, next.2)

/-- SmartCommentService.processTargets over an ordered account list. -/
def processTargets (pipeline : String → Except String CommentResult)
    (cfgT : BetweenPostsConfig) (rnd : Nat → Rat) (accounts : List String) :
    List CommentResult × List Int :=
  processTargetsGo pipeline cfgT rnd 0 accounts

/-- Positional behaviour of the processTargets loop, for any starting
index: one result per account, the failed wrapper at throwing positions and
the own result of the pipeline elsewhere. -/
theorem processTargetsGo_results
    (pipeline : String → Except String CommentResult)
    (cfgT : BetweenPostsConfig) (rnd : Nat → Rat) :
    ∀ (accounts : List String) (idx : Nat),
      (processTargetsGo pipeline cfgT rnd idx accounts).1.length =
          accounts.length ∧
        ∀ (i : Nat) (a : String), accounts[i]? = some a →
          (∀ e, pipeline a = .error e →
            (processTargetsGo pipeline cfgT rnd idx accounts).1[i]? =
              some (failedResult a e)) ∧
          (∀ r, pipeline a = .ok r →
            (processTargetsGo pipeline cfgT rnd idx accounts).1[i]? = some r)
  | [], idx => by simp [processTargetsGo]
  | a :: rest, idx => by
    have ih := processTargetsGo_results pipeline cfgT rnd rest (idx + 1)
    cases hpa : pipeline a with
    | ok result =>
      refine ⟨by simp [processTargetsGo, hpa, ih.1], ?_⟩
      intro i b hib
      cases i with
      | zero =>
        simp only [List.getElem?_cons_zero, Option.some.injEq] at hib
        subst hib
        constructor
        · intro e he; rw [hpa] at he; cases he
        · intro r hri
          rw [hpa] at hri
          cases hri
          simp [processTargetsGo, hpa]
      | succ j =>
        simp only [List.getElem?_cons_succ] at hib
        have := ih.2 j b hib
        simpa [processTargetsGo, hpa] using this
    | error e =>
      refine ⟨by simp [processTargetsGo, hpa, ih.1], ?_⟩
      intro i b hib
      cases i with
      | zero =>
        simp only [List.getElem?_cons_zero, Option.some.injEq] at hib
        subst hib
        constructor
        · intro e2 he2
          rw [hpa] at he2
          cases he2
          simp [processTargetsGo, hpa]
        · intro r hri; rw [hpa] at hri; cases hri
      | succ j =>
        simp only [List.getElem?_cons_succ] at hib
        have := ih.2 j b hib
        simpa [processTargetsGo, hpa] using this

/-- C6: processTargets returns exactly one CommentResult per account, in
input order (the i-th result carries the i-th account), and the result at
each position depends only on the pipeline outcome of that account: a
rejection there yields the failed wrapper for that account alone, while
every other position carries its own pipeline result unchanged. -/
theorem processTargets_isolates_failures
    (pipeline : String → Except String CommentResult)
    (cfgT : BetweenPostsConfig) (rnd : Nat → Rat) (accounts : List String)
    (hpt : ∀ a r, pipeline a = .ok r → r.targetAccount = a) :
    (processTargets pipeline cfgT rnd accounts).1.length = accounts.length ∧
      ∀ (i : Nat) (a : String), accounts[i]? = some a →
        (∃ r : CommentResult,
          (processTargets pipeline cfgT rnd accounts).1[i]? = some r ∧
            r.targetAccount = a) ∧
        (∀ e, pipeline a = .error e →
          (processTargets pipeline cfgT rnd accounts).1[i]? =
            some (failedResult a e)) ∧
        (∀ r, pipeline a = .ok r →
          (processTargets pipeline cfgT rnd accounts).1[i]? = some r) := by
  have main := processTargetsGo_results pipeline cfgT rnd accounts 0
  refine ⟨main.1, ?_⟩
  intro i a hia
  have hpos := main.2 i a hia
  refine ⟨?_, hpos⟩
  cases hpa : pipeline a with
  | ok r =>
    exact ⟨r, hpos.2 r hpa, hpt a r hpa⟩
  | error e =>
    exact ⟨failedResult a e, hpos.1 e hpa, rfl⟩

/-- A pipeline used in batch witnesses: account bee rejects, every other
account resolves to a skipped result. -/
def witnessPipeline : String → Except String CommentResult :=
  fun a => if a = "bee" then .error "boom" else .ok (skippedResult a "no posts")

/-- Witness for C6 on the list [aye, bee, cee] where the pipeline call of bee
rejects: three results, bee failed, aye and cee untouched. -/
theorem processTargets_isolates_failures_witness :
    (processTargets witnessPipeline botConfigBetweenPosts (fun _ => 0)
        ["aye", "bee", "cee"]).1.length = 3 ∧
      ∀ (i : Nat) (a : String), ["aye", "bee", "cee"][i]? = some a →
        (∃ r : CommentResult,
          (processTargets witnessPipeline botConfigBetweenPosts
            (fun _ => 0) ["aye", "bee", "cee"]).1[i]? = some r ∧
            r.targetAccount = a) ∧
        (∀ e, witnessPipeline a = .error e →
          (processTargets witnessPipeline botConfigBetweenPosts (fun _ => 0)
            ["aye", "bee", "cee"]).1[i]? = some (failedResult a e)) ∧
        (∀ r, witnessPipeline a = .ok r →
          (processTargets witnessPipeline botConfigBetweenPosts (fun _ => 0)
            ["aye", "bee", "cee"]).1[i]? = some r) :=
  processTargets_isolates_failures witnessPipeline botConfigBetweenPosts
    (fun _ => 0) ["aye", "bee", "cee"]
    (fun a r h => by
      unfold witnessPipeline at h
      by_cases ha : a = "bee"
      · rw [ha] at h; simp at h
      · rw [if_neg ha] at h
        cases h
        rfl)

/-- Counterexample to C8: on a single-account batch whose pipeline call
resolves, processTargets still sleeps once — after the last (and only)
account — so the delay list is nonempty where the claim requires it empty. -/
theorem processTargets_sleeps_after_last :
    (processTargets witnessPipeline botConfigBetweenPosts (fun _ => 0)
        ["aye"]).2.length = 1 := by
  decide

/-- Every delay emitted by the loop lies within the configured window. -/
theorem betweenPostsDelay_bounds (cfgT : BetweenPostsConfig) (r : Rat)
    (hr0 : 0 ≤ r) (hr1 : r < 1) (hmm : cfgT.min ≤ cfgT.max) :
    (cfgT.min : Int) ≤ betweenPostsDelay cfgT r ∧
      betweenPostsDelay cfgT r ≤ (cfgT.max : Int) := by
  have hcast : (cfgT.min : Rat) ≤ (cfgT.max : Rat) := by exact_mod_cast hmm
  constructor
  · rw [betweenPostsDelay, Int.le_floor]
    push_cast
    nlinarith
  · have hx : r * ((cfgT.max : Rat) - (cfgT.min : Rat)) + (cfgT.min : Rat) ≤
        (cfgT.max : Rat) := by nlinarith
    calc betweenPostsDelay cfgT r ≤ ⌊(cfgT.max : Rat)⌋ := Int.floor_mono hx
      _ = (cfgT.max : Int) := Int.floor_natCast cfgT.max

/-- Delay behaviour of the processTargets loop for any starting index: one
delay per account whose pipeline call resolves, each within the window. -/
theorem processTargetsGo_delays
    (pipeline : String → Except String CommentResult)
    (cfgT : BetweenPostsConfig) (rnd : Nat → Rat)
    (hr : ∀ i, 0 ≤ rnd i ∧ rnd i < 1) (hmm : cfgT.min ≤ cfgT.max) :
    ∀ (accounts : List String) (idx : Nat),
      (∀ a ∈ accounts, ∃ r : CommentResult, pipeline a = .ok r) →
        (processTargetsGo pipeline cfgT rnd idx accounts).2.length =
            accounts.length ∧
          ∀ d ∈ (processTargetsGo pipeline cfgT rnd idx accounts).2,
            (cfgT.min : Int) ≤ d ∧ d ≤ (cfgT.max : Int)
  | [], idx => by intro _; simp [processTargetsGo]
  | a :: rest, idx => by
    intro hok
    obtain ⟨r, hpa⟩ := hok a (List.mem_cons_self a rest)
    have ih := processTargetsGo_delays pipeline cfgT rnd hr hmm rest (idx + 1)
      (fun b hb => hok b (List.mem_cons_of_mem a hb))
    refine ⟨by simp [processTargetsGo, hpa, ih.1], ?_⟩
    intro d hd
    simp only [processTargetsGo, hpa, List.mem_cons] at hd
    rcases hd with hd0 | hdrest
    · rw [hd0]
      exact betweenPostsDelay_bounds cfgT (rnd idx) (hr idx).1 (hr idx).2 hmm
    · exact ih.2 d hdrest

/-- C8 amended: processTargets sleeps after every account whose pipeline
call resolves — including the last account of the list — and each slept
duration, floor(random times (max minus min) plus min), lies within the
configured [min, max] window. -/
theorem processTargets_delays_in_window
    (pipeline : String → Except String CommentResult)
    (cfgT : BetweenPostsConfig) (rnd : Nat → Rat) (accounts : List String)
    (hr : ∀ i, 0 ≤ rnd i ∧ rnd i < 1) (hmm : cfgT.min ≤ cfgT.max)
    (hok : ∀ a ∈ accounts, ∃ r : CommentResult, pipeline a = .ok r) :
    (processTargets pipeline cfgT rnd accounts).2.length = accounts.length ∧
      ∀ d ∈ (processTargets pipeline cfgT rnd accounts).2,
        (cfgT.min : Int) ≤ d ∧ d ≤ (cfgT.max : Int) :=
  processTargetsGo_delays pipeline cfgT rnd hr hmm accounts 0 hok

/-- Witness for the amended C8: a two-account batch with resolving pipeline
calls sleeps twice, both delays within [5000, 10000]. -/
theorem processTargets_delays_in_window_witness :
    (processTargets (fun a => .ok (skippedResult a "no posts"))
        botConfigBetweenPosts (fun _ => (1 : Rat) / 2) ["aye", "cee"]).2.length =
        2 ∧
      ∀ d ∈ (processTargets (fun a => .ok (skippedResult a "no posts"))
          botConfigBetweenPosts (fun _ => (1 : Rat) / 2) ["aye", "cee"]).2,
        (botConfigBetweenPosts.min : Int) ≤ d ∧
          d ≤ (botConfigBetweenPosts.max : Int) :=
  processTargets_delays_in_window (fun a => .ok (skippedResult a "no posts"))
    botConfigBetweenPosts (fun _ => (1 : Rat) / 2) ["aye", "cee"]
    (fun _ => by norm_num) (by decide)
    (fun a _ => ⟨skippedResult a "no posts", rfl⟩)

/-- The lastRunResults value stored by runScheduledTask: a completed run
keeps the result list; a run whose batch rejected keeps the error message
instead. -/
inductive RunSnapshot
  | completed (runId : String) (timestamp : Int) (duration : Int)
      (targets : Nat) (results : List CommentResult)
  | errored (runId : String) (timestamp : Int) (duration : Int)
      (errMsg : String)
deriving Repr, DecidableEq

/-- Mutable fields of SchedulerService (src/services/scheduler.ts) touched
by runScheduledTask. -/
structure SchedulerState where
  isRunning : Bool
  runCount : Nat
  lastRunTime : Option Int
  lastRunResults : Option RunSnapshot
deriving Repr, DecidableEq

/-- The scheduler settings runScheduledTask consults. -/
structure SchedulerConfig where
  skipIfRunning : Bool
deriving Repr, DecidableEq

/-- Shallow embedding of SchedulerService.runScheduledTask: if a previous
run is still executing and skipIfRunning is set, return before touching any
field; otherwise set the running flag, bump the counter, stamp the time,
run the batch (whose outcome and duration arrive as arguments), store the
snapshot — none when the target list is empty, an errored one when the
batch rejected — and clear the running flag in the finally block. -/
def runScheduledTask (cfg : SchedulerConfig) (st : SchedulerState) (now : Int)
    (targets : List String) (batch : Except String (List CommentResult))
    (duration : Int) : SchedulerState :=
  if st.isRunning && cfg.skipIfRunning then st
  else
    let rc := st.runCount + 1
    let runId := "RUN-" ++ toString rc
    if targets.isEmpty then
      { isRunning := false, runCount := rc, lastRunTime := some now,
        lastRunResults := st.lastRunResults }
    else
      match batch with
      | .ok results =>
        { isRunning := false, runCount := rc, lastRunTime := some now,
          lastRunResults := some (.completed runId now duration
            targets.length results) }
      | .error e =>
        { isRunning := false, runCount := rc, lastRunTime := some now,
          lastRunResults := some (.errored runId now duration e) }

/-- C5: a runScheduledTask invocation arriving while a previous run is still
executing, with the skipIfRunning policy enabled, returns the scheduler
state unchanged — runCount, lastRunTime, lastRunResults and isRunning keep
their values and no new snapshot is produced. -/
theorem runScheduledTask_skip_frame
    (cfg : SchedulerConfig) (st : SchedulerState) (now : Int)
    (targets : List String) (batch : Except String (List CommentResult))
    (duration : Int) (hrun : st.isRunning = true)
    (hskip : cfg.skipIfRunning = true) :
    runScheduledTask cfg st now targets batch duration = st := by
  unfold runScheduledTask
  rw [hrun, hskip]
  simp

/-- Witness for C5 at a concrete busy scheduler state. -/
theorem runScheduledTask_skip_frame_witness :
    runScheduledTask { skipIfRunning := true }
        { isRunning := true, runCount := 3, lastRunTime := some 100,
          lastRunResults := none } 200 ["aye"] (.ok []) 7 =
      { isRunning := true, runCount := 3, lastRunTime := some 100,
        lastRunResults := none } :=
  runScheduledTask_skip_frame { skipIfRunning := true }
    { isRunning := true, runCount := 3, lastRunTime := some 100,
      lastRunResults := none } 200 ["aye"] (.ok []) 7 rfl rfl

/-- In-memory registry of active webhook jobs: the keys of the activeJobs
map in the webhook router. -/
structure WebhookState where
  activeJobs : List String
deriving Repr, DecidableEq

/-- Body of a POST /webhook/run-bot request; accounts is none when the field
is missing or not an array. -/
structure RunBotRequest where
  accounts : Option (List String)
  apiKey : Option String
deriving Repr, DecidableEq

/-- The HTTP outcomes of the run-bot route: 401, 400, 409 and 202. -/
inductive RunBotResponse
  | unauthorized
  | badRequest
  | conflict
  | accepted (jobId : String)
deriving Repr, DecidableEq

/-- The API key guard of the route: it rejects only when WEBHOOK_API_KEY is
configured and the supplied key differs. -/
def runBotAuthorized (webhookApiKey apiKey : Option String) : Bool :=
  match webhookApiKey with
  | none => true
  | some k => apiKey == some k

/-- Lexicographic comparison of two character lists, the order JavaScript
Array.sort applies to strings. -/
def charListLe : List Char → List Char → Bool
  | [], _ => true
  | _ :: _, [] => false
  | c :: cs, d :: ds =>
    if c < d then true else if d < c then false else charListLe cs ds

/-- String comparison through the character lists. -/
def strLeB (a b : String) : Bool :=
  charListLe a.data b.data

/-- The per-account validation of the route: account.trim() has length zero
exactly when every character of the username is whitespace. -/
def isBlankUsername (a : String) : Bool :=
  a.data.all fun c => c.isWhitespace

/-- The accounts of a request sorted as by JavaScript Array.sort. -/
def sortedAccounts (accounts : List String) : List String :=
  List.insertionSort (fun a b : String => strLeB a b = true) accounts

/-- The job key of the route: the sorted account list joined by commas. -/
def jobKey (accounts : List String) : String :=
  String.intercalate "," (sortedAccounts accounts)

/-- Shallow embedding of the POST /webhook/run-bot handler: check the API
key, validate the accounts array (present, nonempty, no blank usernames),
then refuse with 409 if the job key is already registered, otherwise
register the key, answer 202 with the job id and start the background job.
Returns the response, the registry afterwards, and whether a background job
was started. -/
def handleRunBot (webhookApiKey : Option String) (st : WebhookState)
    (req : RunBotRequest) (jobId : String) :
    RunBotResponse × WebhookState × Bool :=
  if runBotAuthorized webhookApiKey req.apiKey = false then
    (.unauthorized, st, false)
  else
    match req.accounts with
    | none => (.badRequest, st, false)
    | some accounts =>
      if accounts.isEmpty then (.badRequest, st, false)
      else if accounts.any isBlankUsername then (.badRequest, st, false)
      else
        let key := jobKey accounts
        if st.activeJobs.contains key then (.conflict, st, false)
        else (.accepted jobId, ⟨key :: st.activeJobs⟩, true)

/-- The finally block of runBotInBackground: the job key is deleted from the
registry when the background job finishes, successfully or not. -/
def finishJob (st : WebhookState) (key : String) : WebhookState :=
  ⟨st.activeJobs.erase key⟩

/-- C9: for an authorized, well-formed run-bot request — if its sorted
account list equals that of a registered in-flight job the route answers
409, changes nothing and starts no job; if its key is not registered, the
route answers 202 with the job id, registers the key and starts the
background job; and when a background job finishes, its key is no longer
registered. -/
theorem handleRunBot_spec
    (webhookApiKey : Option String) (st : WebhookState) (req : RunBotRequest)
    (accounts : List String) (jobId : String)
    (hauth : runBotAuthorized webhookApiKey req.apiKey = true)
    (hacc : req.accounts = some accounts)
    (hne : accounts.isEmpty = false)
    (hblank : accounts.any isBlankUsername = false) :
    (∀ inflight : List String,
      sortedAccounts accounts = sortedAccounts inflight →
        jobKey inflight ∈ st.activeJobs →
          handleRunBot webhookApiKey st req jobId = (.conflict, st, false)) ∧
      (jobKey accounts ∉ st.activeJobs →
        handleRunBot webhookApiKey st req jobId =
          (.accepted jobId, ⟨jobKey accounts :: st.activeJobs⟩, true)) ∧
      (∀ (key : String) (s : WebhookState), s.activeJobs.Nodup →
        key ∉ (finishJob s key).activeJobs) := by
  refine ⟨?_, ?_, ?_⟩
  · intro inflight hsorted hmem
    have hkey : jobKey accounts = jobKey inflight := by
      unfold jobKey
      rw [hsorted]
    unfold handleRunBot
    rw [hauth, hacc]
    simp only [hne, Bool.false_eq_true, if_false, hblank]
    have hcontains : st.activeJobs.contains (jobKey accounts) = true := by
      rw [hkey]
      exact List.elem_eq_true_of_mem hmem
    simp only [hcontains, if_true]
    simp
  · intro hnot
    unfold handleRunBot
    rw [hauth, hacc]
    simp only [hne, Bool.false_eq_true, if_false, hblank]
    have hcontains : st.activeJobs.contains (jobKey accounts) = false := by
      rcases hcon : st.activeJobs.contains (jobKey accounts) with _ | _
      · rfl
      · exact absurd (List.mem_of_elem_eq_true hcon) hnot
    simp only [hcontains, Bool.false_eq_true, if_false]
    simp
  · intro key s hnd hmem
    unfold finishJob at hmem
    exact ((List.Nodup.mem_erase_iff hnd).mp hmem).1 rfl

/-- Witness for C9 at a concrete request and registry: the same account set
in a different order collides with the in-flight key, a fresh registry
accepts and registers, and erasing the key releases it. -/
theorem handleRunBot_spec_witness :
    handleRunBot none { activeJobs := [jobKey ["bee", "aye"]] }
        { accounts := some ["aye", "bee"], apiKey := none } "job-1" =
        (.conflict, { activeJobs := [jobKey ["bee", "aye"]] }, false) ∧
      handleRunBot none { activeJobs := [] }
          { accounts := some ["aye", "bee"], apiKey := none } "job-1" =
        (.accepted "job-1",
          { activeJobs := [jobKey ["aye", "bee"]] }, true) ∧
      "k" ∉ (finishJob { activeJobs := ["k"] } "k").activeJobs := by
  refine ⟨?_, ?_, ?_⟩
  · exact (handleRunBot_spec none { activeJobs := [jobKey ["bee", "aye"]] }
      { accounts := some ["aye", "bee"], apiKey := none } ["aye", "bee"]
      "job-1" rfl rfl rfl (by decide)).1 ["bee", "aye"] (by decide)
      (List.mem_singleton.mpr rfl)
  · exact (handleRunBot_spec none { activeJobs := [] }
      { accounts := some ["aye", "bee"], apiKey := none } ["aye", "bee"]
      "job-1" rfl rfl rfl (by decide)).2.1 (List.not_mem_nil _)
  · exact (handleRunBot_spec none { activeJobs := [] }
      { accounts := some ["aye", "bee"], apiKey := none } ["aye", "bee"]
      "job-1" rfl rfl rfl (by decide)).2.2 "k" { activeJobs := ["k"] }
      (List.nodup_singleton _)

/-- Every run of the embedded commentOnLatestPost — whatever the
collaborators do — yields a result whose success flag is false exactly on
action failed. -/
theorem commentOnLatestPost_result_invariant (cfg : MaxPostAgeConfig)
    (env : PipelineEnv) (t : String) :
    ((commentOnLatestPost cfg env t).1.success = false ↔
      (commentOnLatestPost cfg env t).1.action = .failed) := by
  unfold commentOnLatestPost failedResult skippedResult
  repeat' split
  all_goals simp

/-- Every member of the result list of the processTargets loop is either the
failed wrapper of a rejecting account or a result the pipeline returned. -/
theorem processTargetsGo_mem_cases
    (pipeline : String → Except String CommentResult)
    (cfgT : BetweenPostsConfig) (rnd : Nat → Rat) :
    ∀ (accounts : List String) (idx : Nat) (r : CommentResult),
      r ∈ (processTargetsGo pipeline cfgT rnd idx accounts).1 →
        (∃ a e, pipeline a = .error e ∧ r = failedResult a e) ∨
          ∃ a, pipeline a = .ok r
  | [], _, r => by simp [processTargetsGo]
  | a :: rest, idx, r => by
    intro hr
    cases hpa : pipeline a with
    | ok result =>
      simp only [processTargetsGo, hpa, List.mem_cons] at hr
      rcases hr with hr0 | hrrest
      · exact Or.inr ⟨a, by rw [hr0]; exact hpa⟩
      · exact processTargetsGo_mem_cases pipeline cfgT rnd rest (idx + 1) r hrrest
    | error e =>
      simp only [processTargetsGo, hpa, List.mem_cons] at hr
      rcases hr with hr0 | hrrest
      · exact Or.inl ⟨a, e, hpa, hr0⟩
      · exact processTargetsGo_mem_cases pipeline cfgT rnd rest (idx + 1) r hrrest

/-- The pipeline handed to processTargets in the source: the awaited call
this.commentOnLatestPost, which resolves for every environment — its
catch-all means no exception escapes the per-account boundary, so the
Except value is always ok. -/
def accountPipeline (cfg : MaxPostAgeConfig) (envOf : String → PipelineEnv) :
    String → Except String CommentResult :=
  fun a => .ok (commentOnLatestPost cfg (envOf a) a).1

/-- C10: a commentOnLatestPost result has success false exactly when its
action is failed (skipped and commented results always carry success true),
whatever the collaborators do; and every result of processTargets run over
the never-rejecting commentOnLatestPost pipeline satisfies the same
invariant. -/
theorem smartComment_success_iff_failed :
    (∀ (cfg : MaxPostAgeConfig) (env : PipelineEnv) (t : String),
      ((commentOnLatestPost cfg env t).1.success = false ↔
        (commentOnLatestPost cfg env t).1.action = .failed)) ∧
      ∀ (cfg : MaxPostAgeConfig) (envOf : String → PipelineEnv)
        (cfgT : BetweenPostsConfig) (rnd : Nat → Rat)
        (accounts : List String) (r : CommentResult),
        r ∈ (processTargets (accountPipeline cfg envOf) cfgT rnd accounts).1 →
          (r.success = false ↔ r.action = .failed) := by
  refine ⟨commentOnLatestPost_result_invariant, ?_⟩
  intro cfg envOf cfgT rnd accounts r hr
  rcases processTargetsGo_mem_cases (accountPipeline cfg envOf) cfgT rnd
      accounts 0 r hr with ⟨a, e, hae, hre⟩ | ⟨a, ha⟩
  · unfold accountPipeline at hae
    cases hae
  · unfold accountPipeline at ha
    rcases Except.ok.inj ha with hra
    rw [← hra]
    exact commentOnLatestPost_result_invariant cfg (envOf a) a

/-- Witness for C10 at a concrete failing environment and a one-account
batch. -/
theorem smartComment_success_iff_failed_witness :
    ((commentOnLatestPost botConfigMaxPostAge envGenFails "acct").1.success =
        false ↔
      (commentOnLatestPost botConfigMaxPostAge envGenFails "acct").1.action =
        .failed) ∧
      ∀ r ∈ (processTargets
          (accountPipeline botConfigMaxPostAge fun _ => envGenFails)
          botConfigBetweenPosts (fun _ => 0) ["acct"]).1,
        (r.success = false ↔ r.action = .failed) :=
  ⟨smartComment_success_iff_failed.1 botConfigMaxPostAge envGenFails "acct",
    fun r hr => smartComment_success_iff_failed.2 botConfigMaxPostAge
      (fun _ => envGenFails) botConfigBetweenPosts (fun _ => 0) ["acct"] r hr⟩

end InstaAgent
